import Mathlib

/-!
C-Hero-Calc: `cosmosData.h`

A shallow embedding of the data model declared in `src/cosmosData.h`
(monsters, fight results, armies and their comparison functions) together
with theorems about it.

Conventions of the embedding

* Machine integers (`int8_t`, `int16_t`, `int32_t`, `int`) are embedded as
  `Int`.  Comparisons of such values are exact in C++ (both operands are
  promoted to `int`), so they are the comparisons of `Int`.
* `Army.add` is embedded as a total function.  It agrees with the source where
  the call is defined in C++: the army holds fewer than `ARMY_MAX_SIZE`
  monsters, so that the store `monsters[monsterAmount]` is inside the array,
  and `followerCost + cost` fits in `int32_t`, so that the addition, which C++
  carries out in `int`, does not overflow.  Outside of that the C++ behaviour
  is undefined; there `wrapInt32`, `wrapInt8` and `storeSlot` only make the
  function total.  Every universally quantified theorem on the value of
  `followerCost` assumes that the sums fit, and no theorem states what
  `monsters` or `monsterAmount` hold after a store outside the array.
* The global catalog `monsterReference` is only declared in the header and
  filled elsewhere; every function reading it takes it as its first argument.
* A C++ constructor that leaves members uninitialised takes the previous
  content of the storage as an argument (`mem`), so that nothing is assumed
  about the members the constructor does not write.
-/

namespace CosmosData

/-! ## Constants -/

def ARMY_MAX_SIZE : Nat := 6
def TOURNAMENT_LINES : Nat := 5
def ARMY_MAX_BRUTEFORCEABLE_SIZE : Nat := 4
def HEROLEVEL_SEPARATOR : String := ":"
def INDEX_NO_MONSTER : Int := -1

/-! ## Fixed-width integers -/

def INT8_MIN : Int := -128
def INT8_MAX : Int := 127
def INT32_MIN : Int := -2147483648
def INT32_MAX : Int := 2147483647

/-- Reduction of an integer to the range of `int8_t` (two's complement). -/
def wrapInt8 (x : Int) : Int := (x + 128) % 256 - 128

/-- Reduction of an integer to the range of `int32_t` (two's complement). -/
def wrapInt32 (x : Int) : Int := (x + 2147483648) % 4294967296 - 2147483648

/-- Membership in the range of `int32_t`. -/
def inInt32 (x : Int) : Prop := INT32_MIN ≤ x ∧ x ≤ INT32_MAX

instance (x : Int) : Decidable (inInt32 x) := by
  unfold inInt32; infer_instance

/-! ## Skills, elements, rarities -/

inductive SkillType where
  | NOTHING | BUFF | BUFF_L | PROTECT | PROTECT_L | AOE | P_AOE | HEAL | BERSERK
  | FRIENDS | CHAMPION | CHAMPION_L | ADAPT | RAINBOW | TRAINING | WITHER
  | REVENGE | VALKYRIE
  deriving DecidableEq, Repr

inductive Element where
  | EARTH | AIR | WATER | FIRE | ALL | SELF
  deriving DecidableEq, Repr

/-- The discrete value of an enumerator of `Element`. -/
def Element.toNat : Element → Nat
  | .EARTH => 0
  | .AIR => 1
  | .WATER => 2
  | .FIRE => 3
  | .ALL => 4
  | .SELF => 5

/-- The table `counter[]`: `counter[e]` has the advantage over `e`. -/
def counter : List Element :=
  [Element.FIRE, Element.EARTH, Element.AIR, Element.WATER, Element.SELF, Element.SELF]

/-- The lookup `counter[e]`. -/
def counterOf (e : Element) : Element :=
  counter.get ⟨e.toNat, by cases e <;> decide⟩

inductive HeroRarity where
  | NO_HERO | COMMON | RARE | LEGENDARY
  deriving DecidableEq, Repr

/-- The discrete value of an enumerator of `HeroRarity`: stat points per level. -/
def HeroRarity.toNat : HeroRarity → Nat
  | .NO_HERO => 0
  | .COMMON => 1
  | .RARE => 2
  | .LEGENDARY => 6

structure HeroSkill where
  type : SkillType
  target : Element
  sourceElement : Element
  amount : Float

def NO_SKILL : HeroSkill :=
  { type := SkillType.NOTHING, target := Element.AIR, sourceElement := Element.AIR, amount := 1 }

/-! ## Monsters -/

structure Monster where
  hp : Int
  damage : Int
  cost : Int
  baseName : String
  element : Element
  rarity : HeroRarity
  skill : HeroSkill
  level : Int
  name : String

/-- The read `monsterReference[m].cost` for an `int8_t` index `m`.  The index
is valid when `0 ≤ m < monsterReference.size()`; outside of that range the C++
read is undefined and the embedding yields `0`. -/
def costAt (monsterReference : List Monster) (m : Int) : Int :=
  if 0 ≤ m then
    match monsterReference.get? m.toNat with
    | some mon => mon.cost
    | none => 0
  else 0

/-- Validity of `m` as an index into the catalog. -/
def validIndex (monsterReference : List Monster) (m : Int) : Prop :=
  0 ≤ m ∧ m < monsterReference.length

instance (monsterReference : List Monster) (m : Int) :
    Decidable (validIndex monsterReference m) := by
  unfold validIndex; infer_instance

/-! ## Fight results -/

structure FightResult where
  damage : Int
  leftAoeDamage : Int
  leftValkyrieDamage : Int
  rightAoeDamage : Int
  rightValkyrieDamage : Int
  berserk : Int
  monstersLost : Int
  turncounter : Int
  valid : Bool
  rightWon : Bool
  dominated : Bool
  deriving DecidableEq, Repr

/-- The constructor `FightResult() : valid(false) {}`: only `valid` is written,
the other members keep whatever the storage `mem` held. -/
def FightResult.construct (mem : FightResult) : FightResult :=
  { mem with valid := false }

/-- The member `bool operator <=(const FightResult & toCompare) const`. -/
def FightResult.operator_le (this toCompare : FightResult) : Bool :=
  if this.leftAoeDamage < toCompare.leftAoeDamage
      || this.rightAoeDamage > toCompare.rightAoeDamage then
    false
  else if this.monstersLost == toCompare.monstersLost then
    decide (this.damage ≤ toCompare.damage)
  else
    decide (this.monstersLost < toCompare.monstersLost)

/-! ## Armies -/

structure Army where
  lastFightData : FightResult
  followerCost : Int
  monsters : Mathlib.Vector Int ARMY_MAX_SIZE
  monsterAmount : Int
  deriving DecidableEq

/-- The store `monsters[k] = m` into the array of `ARMY_MAX_SIZE` slots.  For
`k` outside `0 .. ARMY_MAX_SIZE - 1` the C++ store is outside the array and
undefined (with the usual layout `monsters[6]` is the byte of the neighbouring
member `monsterAmount`); the embedding then leaves the array as it is, which
only keeps the function total and is not meant as the effect of that store. -/
def storeSlot (monsters : Mathlib.Vector Int ARMY_MAX_SIZE) (k m : Int) :
    Mathlib.Vector Int ARMY_MAX_SIZE :=
  if h : k.toNat < ARMY_MAX_SIZE then
    if 0 ≤ k then monsters.set ⟨k.toNat, h⟩ m else monsters
  else monsters

/-- The member `void add(const int8_t m)`: three unguarded statements.  The
embedding is the source's behaviour when `0 ≤ monsterAmount < ARMY_MAX_SIZE`
and `followerCost + monsterReference[m].cost` fits in `int32_t`.  On a full
army the field `followerCost` is still the one the source computes (the store
outside the array does not reach it), `monsters` and `monsterAmount` are not;
when the sum does not fit, the addition is undefined in C++ and `wrapInt32`
only keeps the function total. -/
def Army.add (monsterReference : List Monster) (this : Army) (m : Int) : Army :=
  { lastFightData := this.lastFightData
    monsters := storeSlot this.monsters this.monsterAmount m
    followerCost := wrapInt32 (this.followerCost + costAt monsterReference m)
    monsterAmount := wrapInt8 (this.monsterAmount + 1) }

/-- The constructor `Army(std::vector<int8_t> someMonsters = {})`:
`lastFightData` is default-constructed, `followerCost` and `monsterAmount`
start at `0`, the slots of `monsters` are not initialised, and the loop adds
the elements of `someMonsters` in order. -/
def Army.construct (monsterReference : List Monster) (mem : Army)
    (someMonsters : List Int) : Army :=
  someMonsters.foldl (fun army m => Army.add monsterReference army m)
    { lastFightData := FightResult.construct mem.lastFightData
      followerCost := 0
      monsters := mem.monsters
      monsterAmount := 0 }

/-- The member `bool isEmpty()`. -/
def Army.isEmpty (this : Army) : Bool :=
  this.monsterAmount == 0

/-- The comparator `hasFewerFollowers(const Army & a, const Army & b)`. -/
def hasFewerFollowers (a b : Army) : Bool :=
  (!a.lastFightData.dominated && b.lastFightData.dominated)
    || (a.lastFightData.dominated == b.lastFightData.dominated
        && decide (a.followerCost < b.followerCost))

/-- The comparator `isCheaper(const Monster & a, const Monster & b)`. -/
def isCheaper (a b : Monster) : Bool :=
  decide (a.cost < b.cost)

/-- The members of an army: the slots `monsters[0 .. monsterAmount - 1]`. -/
def Army.members (this : Army) : List Int :=
  this.monsters.toList.take this.monsterAmount.toNat

/-- The sum of `monsterReference[monsters[i]].cost` over the members. -/
def Army.memberCostSum (monsterReference : List Monster) (this : Army) : Int :=
  (this.members.map (costAt monsterReference)).sum

/-- No `followerCost += ...` overflows when the monsters of `l` are added one
after the other to an army of cost `0`: every partial sum of their catalog
costs lies in the range of `int32_t`. -/
def partialSumsFit (monsterReference : List Monster) (l : List Int) : Prop :=
  ∀ k, k ≤ l.length → inInt32 (((l.take k).map (costAt monsterReference)).sum)

instance (monsterReference : List Monster) (l : List Int) :
    Decidable (partialSumsFit monsterReference l) := by
  unfold partialSumsFit; infer_instance

/-! ## The relation of the specification

The specification describes dominance through the "area damage taken" and
the "line-piercing damage taken" of an outcome.  A fight result records both
per side, so the definitions below take the side the compared army fought on.
-/

inductive Side where
  | left | right
  deriving DecidableEq, Repr

/-- Accumulated area damage taken by side `s`. -/
def aoeTaken (s : Side) (r : FightResult) : Int :=
  match s with
  | .left => r.leftAoeDamage
  | .right => r.rightAoeDamage

/-- Accumulated line-piercing (Valkyrie) damage taken by side `s`. -/
def valkyrieTaken (s : Side) (r : FightResult) : Int :=
  match s with
  | .left => r.leftValkyrieDamage
  | .right => r.rightValkyrieDamage

/-- Side `s` did not win the fight recorded in `r`. -/
def nonWinning (s : Side) (r : FightResult) : Prop :=
  match s with
  | .left => r.rightWon = true
  | .right => r.rightWon = false

instance (s : Side) (r : FightResult) : Decidable (nonWinning s r) := by
  cases s <;> unfold nonWinning <;> infer_instance

/-- The specification's wording of "A is not worse than B": A's area damage
taken is at least B's, A's line-piercing damage taken is at most B's, and A
destroyed at least as many monsters as B, or they tie on monsters destroyed and
A dealt at least as much residual damage as B. -/
def specNotWorse (s : Side) (A B : FightResult) : Prop :=
  aoeTaken s B ≤ aoeTaken s A ∧ valkyrieTaken s A ≤ valkyrieTaken s B ∧
    (B.monstersLost ≤ A.monstersLost ∨
      (A.monstersLost = B.monstersLost ∧ B.damage ≤ A.damage))

instance (s : Side) (A B : FightResult) : Decidable (specNotWorse s A B) := by
  unfold specNotWorse; infer_instance

/-! ## Concrete data used by the examples -/

/-- A plain monster of the given follower cost. -/
def plainMonster (cost : Int) : Monster :=
  { hp := 20, damage := 8, cost := cost, baseName := "a1", element := Element.AIR,
    rarity := HeroRarity.NO_HERO, skill := NO_SKILL, level := 0, name := "a1" }

/-- A one-entry catalog whose entry costs `1000` followers. -/
def paidCatalog : List Monster := [plainMonster 1000]

/-- A one-entry catalog whose entry costs no followers. -/
def freeCatalog : List Monster := [plainMonster 0]

/-- A one-entry catalog whose entry has the largest cost an `int` holds. -/
def costlyCatalog : List Monster := [plainMonster 2147483647]

/-- A fight result with every counter at zero and every flag cleared. -/
def blankResult : FightResult :=
  { damage := 0, leftAoeDamage := 0, leftValkyrieDamage := 0, rightAoeDamage := 0,
    rightValkyrieDamage := 0, berserk := 0, monstersLost := 0, turncounter := 0,
    valid := false, rightWon := false, dominated := false }

/-- A lost fight of the left army: valid, won by the right side. -/
def lostResult : FightResult :=
  { blankResult with valid := true, rightWon := true }

/-- Zeroed storage for an army. -/
def blankArmy : Army :=
  { lastFightData := blankResult, followerCost := 0,
    monsters := ⟨[0, 0, 0, 0, 0, 0], rfl⟩, monsterAmount := 0 }

/-- An army of the given cost and dominated flag, for sorted lists. -/
def rankedArmy (dominated : Bool) (cost : Int) : Army :=
  { blankArmy with
    lastFightData := { lostResult with dominated := dominated }
    followerCost := cost }

/-- A list sorted by `hasFewerFollowers`. -/
def sortedFrontier : List Army :=
  [rankedArmy false 10, rankedArmy false 25, rankedArmy true 5, rankedArmy true 5,
   rankedArmy true 40]

/-- The empty army over `freeCatalog`, as the constructor returns it. -/
def emptyFreeArmy : Army := Army.construct freeCatalog blankArmy []

/-- A one-monster army over `paidCatalog`. -/
def onePaidArmy : Army := Army.construct paidCatalog blankArmy [0]

/-- A one-monster army over `costlyCatalog`: its cost is `INT32_MAX`. -/
def oneCostlyArmy : Army := Army.construct costlyCatalog blankArmy [0]

/-- A full army over `paidCatalog`: six monsters. -/
def fullPaidArmy : Army := Army.construct paidCatalog blankArmy [0, 0, 0, 0, 0, 0]

/-- Three lost fights, each worse than or equal to the next under `operator <=`. -/
def weakResult : FightResult :=
  { lostResult with leftAoeDamage := 30, rightAoeDamage := 0, monstersLost := 1, damage := 50 }

def middleResult : FightResult :=
  { lostResult with leftAoeDamage := 20, rightAoeDamage := 10, monstersLost := 1, damage := 70 }

def strongResult : FightResult :=
  { lostResult with leftAoeDamage := 20, rightAoeDamage := 15, monstersLost := 3, damage := 5 }

/-- A lost fight in which both sides took more area damage than in `lostResult`. -/
def splashedResult : FightResult :=
  { lostResult with leftAoeDamage := 12, rightAoeDamage := 7 }

/-- A lost fight that differs from `lostResult` only in the Valkyrie damage. -/
def piercedResult : FightResult :=
  { lostResult with leftValkyrieDamage := 9, rightValkyrieDamage := 9 }

/-- A lost fight in which one more monster was destroyed than in `lostResult`. -/
def killingResult : FightResult :=
  { lostResult with monstersLost := 1 }

/-- A pair of lost fights: the left side of the first took more area damage and
less Valkyrie damage than the left side of the second. -/
def leftSplashedResult : FightResult :=
  { lostResult with leftAoeDamage := 5, leftValkyrieDamage := 0 }

def leftPiercedResult : FightResult :=
  { lostResult with leftAoeDamage := 0, leftValkyrieDamage := 4 }

/-- The same pair for the right side. -/
def rightSplashedResult : FightResult :=
  { lostResult with rightAoeDamage := 5, rightValkyrieDamage := 0 }

def rightPiercedResult : FightResult :=
  { lostResult with rightAoeDamage := 0, rightValkyrieDamage := 4 }

/-- A fight result that was never simulated: default-constructed over the
storage of `lostResult`. -/
def unsimulatedResult : FightResult := FightResult.construct lostResult

/-- A default-constructed fight result over the storage of `weakResult`. -/
def unsimulatedWeakResult : FightResult := FightResult.construct weakResult

/-- Storage that held another army before: its fight result is marked valid
and dominated, its slots and counters are stale. -/
def staleArmy : Army :=
  { lastFightData := { strongResult with dominated := true }, followerCost := 4711,
    monsters := ⟨[9, 9, 9, 9, 9, 9], rfl⟩, monsterAmount := 3 }

/-- The four base elements `EARTH`, `AIR`, `WATER`, `FIRE`, as opposed to the
targeting values `ALL` and `SELF`. -/
def isBaseElement : Element → Bool
  | .EARTH => true
  | .AIR => true
  | .WATER => true
  | .FIRE => true
  | .ALL => false
  | .SELF => false

/-- A two-entry catalog: a monster of cost `1000` and one of cost `250`. -/
def mixedCatalog : List Monster := [plainMonster 1000, plainMonster 250]

/-- A fight result that agrees with `weakResult` on the four compared fields and
differs from it in every other field. -/
def weakTwinResult : FightResult :=
  { weakResult with
    leftValkyrieDamage := 3, rightValkyrieDamage := 8, berserk := 2
    turncounter := 17, valid := false, rightWon := false, dominated := true }

/-- The same for `middleResult`. -/
def middleTwinResult : FightResult :=
  { middleResult with
    leftValkyrieDamage := 1, rightValkyrieDamage := 6, berserk := 4
    turncounter := 9, valid := false, rightWon := false, dominated := true }

/-- A lost fight with the area damage of `weakResult` and more monsters
destroyed. -/
def weakKillingResult : FightResult :=
  { weakResult with monstersLost := 2, damage := 10 }

/-! ## Auxiliary lemmas -/

/-- The verdict of `operator <=` as a formula over the compared fields. -/
theorem operator_le_iff (a b : FightResult) :
    a.operator_le b = true ↔
      b.leftAoeDamage ≤ a.leftAoeDamage ∧ a.rightAoeDamage ≤ b.rightAoeDamage ∧
        (a.monstersLost < b.monstersLost ∨
          (a.monstersLost = b.monstersLost ∧ a.damage ≤ b.damage)) := by
  unfold FightResult.operator_le
  split_ifs with h1 h2
  · simp only [Bool.or_eq_true, decide_eq_true_eq] at h1
    constructor
    · intro h; cases h
    · rintro ⟨h3, h4, -⟩; omega
  · simp only [Bool.or_eq_true, decide_eq_true_eq, not_or, not_lt] at h1
    simp only [beq_iff_eq] at h2
    simp only [decide_eq_true_eq]
    constructor
    · intro h; exact ⟨h1.1, by omega, Or.inr ⟨h2, h⟩⟩
    · rintro ⟨-, -, h | h⟩
      · omega
      · exact h.2
  · simp only [Bool.or_eq_true, decide_eq_true_eq, not_or, not_lt] at h1
    simp only [beq_iff_eq] at h2
    simp only [decide_eq_true_eq]
    constructor
    · intro h; exact ⟨h1.1, by omega, Or.inl h⟩
    · rintro ⟨-, -, h | h⟩
      · exact h
      · exact absurd h.1 h2

/-- The verdict `false` of `operator <=`, as the negation of the formula. -/
theorem operator_le_eq_false_iff (a b : FightResult) :
    a.operator_le b = false ↔
      ¬ (b.leftAoeDamage ≤ a.leftAoeDamage ∧ a.rightAoeDamage ≤ b.rightAoeDamage ∧
        (a.monstersLost < b.monstersLost ∨
          (a.monstersLost = b.monstersLost ∧ a.damage ≤ b.damage))) := by
  rw [← operator_le_iff, Bool.not_eq_true]

theorem wrapInt32_of_inInt32 (x : Int) (h : inInt32 x) : wrapInt32 x = x := by
  unfold inInt32 INT32_MIN INT32_MAX at h
  unfold wrapInt32; omega

theorem wrapInt8_succ (n : Int) (h0 : 0 ≤ n) (h1 : n < 6) : wrapInt8 (n + 1) = n + 1 := by
  unfold wrapInt8; omega

/-- A store at an index inside the array is the update of that slot. -/
theorem storeSlot_inBounds (v : Mathlib.Vector Int ARMY_MAX_SIZE) (n : Nat)
    (hn : n < ARMY_MAX_SIZE) (m : Int) : storeSlot v (n : Int) m = v.set ⟨n, hn⟩ m := by
  unfold storeSlot
  have h : (n : Int).toNat = n := Int.toNat_ofNat n
  simp [h, hn]

theorem take_succ_set (l : List Int) (n : Nat) (hn : n < l.length) (m : Int) :
    (l.set n m).take (n + 1) = l.take n ++ [m] := by
  induction l generalizing n with
  | nil => simp at hn
  | cons x xs ih =>
    cases n with
    | zero => simp
    | succ k =>
      have hk : k < xs.length := by simpa using hn
      simp [ih k hk]

/-- Adding to an army of `n < ARMY_MAX_SIZE` monsters makes the count `n + 1`. -/
theorem add_monsterAmount (cat : List Monster) (A : Army) (m : Int) (n : Nat)
    (hn : n < ARMY_MAX_SIZE) (hA : A.monsterAmount = n) :
    (Army.add cat A m).monsterAmount = ((n + 1 : Nat) : Int) := by
  unfold ARMY_MAX_SIZE at hn
  show wrapInt8 (A.monsterAmount + 1) = _
  rw [hA, wrapInt8_succ _ (by omega) (by omega)]
  push_cast; rfl

/-- Adding to an army of `n < ARMY_MAX_SIZE` monsters appends to its members. -/
theorem add_members (cat : List Monster) (A : Army) (m : Int) (n : Nat)
    (hn : n < ARMY_MAX_SIZE) (hA : A.monsterAmount = n) :
    (Army.add cat A m).members = A.members ++ [m] := by
  have hcount := add_monsterAmount cat A m n hn hA
  unfold Army.members
  rw [hcount, hA]
  show List.take _ (storeSlot A.monsters A.monsterAmount m).toList = _
  rw [hA, storeSlot_inBounds A.monsters n hn m]
  simp only [Int.toNat_ofNat, Mathlib.Vector.toList_set]
  exact take_succ_set _ n (by simpa using hn) m

/-- What a run of `add` calls that stays within the capacity does to an army. -/
theorem foldl_add_spec (cat : List Monster) (l : List Int) :
    ∀ (A : Army) (n : Nat), A.monsterAmount = n → n + l.length ≤ ARMY_MAX_SIZE →
      wrapInt32 A.followerCost = A.followerCost →
      (l.foldl (Army.add cat) A).monsterAmount = ((n + l.length : Nat) : Int) ∧
      (l.foldl (Army.add cat) A).members = A.members ++ l ∧
      (l.foldl (Army.add cat) A).followerCost
        = wrapInt32 (A.followerCost + (l.map (costAt cat)).sum) ∧
      (l.foldl (Army.add cat) A).lastFightData = A.lastFightData := by
  induction l with
  | nil =>
    intro A n hA _ hfc
    simp [hA, hfc]
  | cons m ms ih =>
    intro A n hA hlen _
    have hn : n < ARMY_MAX_SIZE := by simp at hlen; omega
    have h1 := add_monsterAmount cat A m n hn hA
    have h2 := add_members cat A m n hn hA
    obtain ⟨i1, i2, i3, i4⟩ := ih (Army.add cat A m) (n + 1) h1 (by simp at hlen ⊢; omega)
      (by show wrapInt32 (wrapInt32 _) = wrapInt32 _; unfold wrapInt32; omega)
    refine ⟨?_, ?_, ?_, ?_⟩
    · rw [List.foldl_cons, i1]; simp; omega
    · rw [List.foldl_cons, i2, h2]; simp
    · rw [List.foldl_cons, i3]
      show wrapInt32 (wrapInt32 (A.followerCost + costAt cat m) + _) = _
      simp only [List.map_cons, List.sum_cons]
      unfold wrapInt32; omega
    · rw [List.foldl_cons, i4]; rfl

/-- The army the constructor starts its loop from. -/
theorem construct_eq_foldl (cat : List Monster) (mem : Army) (v : List Int) :
    Army.construct cat mem v =
      v.foldl (Army.add cat)
        { lastFightData := FightResult.construct mem.lastFightData
          followerCost := 0
          monsters := mem.monsters
          monsterAmount := 0 } := rfl

/-- The constructor followed by further `add` calls, within the capacity. -/
theorem construct_then_add_spec (cat : List Monster) (mem : Army) (v adds : List Int)
    (hlen : v.length + adds.length ≤ ARMY_MAX_SIZE) :
    (adds.foldl (Army.add cat) (Army.construct cat mem v)).monsterAmount
        = ((v.length + adds.length : Nat) : Int) ∧
      (adds.foldl (Army.add cat) (Army.construct cat mem v)).members = v ++ adds ∧
      (adds.foldl (Army.add cat) (Army.construct cat mem v)).followerCost
        = wrapInt32 (((v ++ adds).map (costAt cat)).sum) := by
  rw [construct_eq_foldl, ← List.foldl_append]
  obtain ⟨h1, h2, h3, -⟩ := foldl_add_spec cat (v ++ adds)
    { lastFightData := FightResult.construct mem.lastFightData
      followerCost := 0
      monsters := mem.monsters
      monsterAmount := 0 } 0 rfl (by simpa using hlen) (by show wrapInt32 0 = 0; decide)
  refine ⟨?_, ?_, ?_⟩
  · rw [h1]; simp
  · rw [h2]; simp [Army.members]
  · rw [h3]; simp

/-- No run of `add` calls, of any length, touches `lastFightData`. -/
theorem foldl_add_lastFightData (cat : List Monster) (l : List Int) :
    ∀ A : Army, (l.foldl (Army.add cat) A).lastFightData = A.lastFightData := by
  induction l with
  | nil => intro A; rfl
  | cons m ms ih => intro A; rw [List.foldl_cons, ih]; rfl

/-- Four lookups in `counter[]` lead a base element back to itself. -/
theorem counterOf_iterate_four (e : Element) (he : isBaseElement e = true) :
    counterOf^[4] e = e := by
  cases e <;> first | rfl | exact absurd he (by decide)

theorem counterOf_iterate_four_mul (e : Element) (he : isBaseElement e = true) (q : Nat) :
    counterOf^[4 * q] e = e := by
  induction q with
  | zero => rfl
  | succ q ih =>
    rw [Nat.mul_succ, Function.iterate_add_apply, counterOf_iterate_four e he, ih]

/-- Only the number of lookups modulo four matters on a base element. -/
theorem counterOf_iterate_mod (e : Element) (he : isBaseElement e = true) (k : Nat) :
    counterOf^[k] e = counterOf^[k % 4] e := by
  conv_lhs => rw [← Nat.mod_add_div k 4]
  rw [Function.iterate_add_apply, counterOf_iterate_four_mul e he]

/-- Fewer than four lookups, but at least one, move a base element. -/
theorem counterOf_iterate_lt_four (e : Element) (he : isBaseElement e = true) (r : Nat)
    (hr : r < 4) : counterOf^[r] e = e ↔ r = 0 := by
  interval_cases r <;> cases e <;> first | decide | exact absurd he (by decide)

/-- On `ALL` and `SELF` every run of lookups stays outside the base elements. -/
theorem counterOf_iterate_not_base (e : Element) (he : isBaseElement e = false) (k : Nat) :
    isBaseElement (counterOf^[k] e) = false := by
  induction k with
  | zero => exact he
  | succ k ih =>
    rw [Function.iterate_succ_apply']
    generalize counterOf^[k] e = x at ih
    cases x <;> first | rfl | exact absurd ih (by decide)

/-- The slots below `monsterAmount` are the members, position by position. -/
theorem get_of_members_eq (A : Army) (v : List Int) (hmem : A.members = v) (i : Nat)
    (hi : i < v.length) (hi6 : i < ARMY_MAX_SIZE) :
    A.monsters.get ⟨i, hi6⟩ = v.get ⟨i, hi⟩ := by
  subst hmem
  unfold Army.members at hi ⊢
  rw [Mathlib.Vector.get_eq_get]
  simp only [List.get_eq_getElem, Fin.coe_cast, List.getElem_take]

/-- The verdict of `hasFewerFollowers` as a formula: the order on the pairs
(`dominated`, `followerCost`) with `false` before `true`. -/
theorem hasFewerFollowers_iff (a b : Army) :
    hasFewerFollowers a b = true ↔
      (a.lastFightData.dominated = false ∧ b.lastFightData.dominated = true) ∨
      (a.lastFightData.dominated = b.lastFightData.dominated ∧
        a.followerCost < b.followerCost) := by
  unfold hasFewerFollowers
  cases a.lastFightData.dominated <;> cases b.lastFightData.dominated <;> simp

theorem hasFewerFollowers_eq_false_iff (a b : Army) :
    hasFewerFollowers a b = false ↔
      ¬ ((a.lastFightData.dominated = false ∧ b.lastFightData.dominated = true) ∨
        (a.lastFightData.dominated = b.lastFightData.dominated ∧
          a.followerCost < b.followerCost)) := by
  rw [← hasFewerFollowers_iff, Bool.not_eq_true]

/-- The cost after a run of `add` calls of any length, in the embedding. -/
theorem foldl_add_followerCost (cat : List Monster) (l : List Int) :
    ∀ A : Army, wrapInt32 A.followerCost = A.followerCost →
      (l.foldl (Army.add cat) A).followerCost
        = wrapInt32 (A.followerCost + (l.map (costAt cat)).sum) := by
  induction l with
  | nil =>
    intro A hfc
    simp [hfc]
  | cons m ms ih =>
    intro A _
    rw [List.foldl_cons,
      ih (Army.add cat A m)
        (by show wrapInt32 (wrapInt32 _) = wrapInt32 _; unfold wrapInt32; omega)]
    show wrapInt32 (wrapInt32 (A.followerCost + costAt cat m) + _) = _
    simp only [List.map_cons, List.sum_cons]
    unfold wrapInt32; omega

/-- The cost of the army the constructor returns, when the total fits. -/
theorem construct_followerCost_of_fit (cat : List Monster) (mem : Army) (v : List Int)
    (hfit : inInt32 ((v.map (costAt cat)).sum)) :
    (Army.construct cat mem v).followerCost = (v.map (costAt cat)).sum := by
  rw [construct_eq_foldl, foldl_add_followerCost cat v _ (by show wrapInt32 0 = 0; decide)]
  show wrapInt32 (0 + _) = _
  rw [Int.zero_add, wrapInt32_of_inInt32 _ hfit]

/-- The last of the partial sums is the total. -/
theorem partialSumsFit_total (cat : List Monster) (l : List Int)
    (h : partialSumsFit cat l) : inInt32 ((l.map (costAt cat)).sum) := by
  have := h l.length (Nat.le_refl _)
  rwa [List.take_length] at this

/-- The partial sums of a prefix are partial sums of the whole list. -/
theorem partialSumsFit_left (cat : List Monster) (l r : List Int)
    (h : partialSumsFit cat (l ++ r)) : partialSumsFit cat l := by
  intro k hk
  have := h k (by rw [List.length_append]; omega)
  rwa [List.take_append_of_le_length hk] at this

/-! ## Cost of an army -/

/-- C1, as stated, fails.  Adding a catalog entry of cost `0` to the empty army
leaves `followerCost` at `0`, so the cost does not strictly increase; and adding
an entry of cost `INT32_MAX` to an army whose cost is already `INT32_MAX`
yields `-2`, so the increase is not the catalog cost. -/
theorem add_cost_strict_increase_counterexample :
    (validIndex freeCatalog 0 ∧ 0 ≤ emptyFreeArmy.monsterAmount ∧
      emptyFreeArmy.monsterAmount < ARMY_MAX_SIZE ∧
      ¬ (emptyFreeArmy.followerCost < (Army.add freeCatalog emptyFreeArmy 0).followerCost)) ∧
    (validIndex costlyCatalog 0 ∧ 0 ≤ oneCostlyArmy.monsterAmount ∧
      oneCostlyArmy.monsterAmount < ARMY_MAX_SIZE ∧
      (Army.add costlyCatalog oneCostlyArmy 0).followerCost = -2 ∧
      (Army.add costlyCatalog oneCostlyArmy 0).followerCost - oneCostlyArmy.followerCost
        ≠ costAt costlyCatalog 0) := by
  decide

/-- C1, amended: for an army holding fewer than `ARMY_MAX_SIZE` monsters and a
valid catalog index `m`, if the new total fits in `int32_t` then `add` increases
`followerCost` by exactly `monsterReference[m].cost`, and the new cost is
strictly greater than the old one exactly when that catalog cost is positive. -/
theorem add_cost_exact (cat : List Monster) (A : Army) (m : Int)
    (_hm : validIndex cat m)
    (_hn : 0 ≤ A.monsterAmount ∧ A.monsterAmount < ARMY_MAX_SIZE)
    (hfit : inInt32 (A.followerCost + costAt cat m)) :
    (Army.add cat A m).followerCost - A.followerCost = costAt cat m ∧
      (A.followerCost < (Army.add cat A m).followerCost ↔ 0 < costAt cat m) := by
  have h : (Army.add cat A m).followerCost = A.followerCost + costAt cat m :=
    wrapInt32_of_inInt32 _ hfit
  rw [h]
  constructor
  · omega
  · constructor <;> intro h' <;> omega

/-- C1, amended, at a concrete input: adding entry `0` of `paidCatalog` (cost
`1000`) to a one-monster army raises the cost from `1000` to `2000`. -/
theorem add_cost_exact_witness :
    (validIndex paidCatalog 0 ∧
      (0 ≤ onePaidArmy.monsterAmount ∧ onePaidArmy.monsterAmount < ARMY_MAX_SIZE) ∧
      inInt32 (onePaidArmy.followerCost + costAt paidCatalog 0)) ∧
    ((Army.add paidCatalog onePaidArmy 0).followerCost - onePaidArmy.followerCost
        = costAt paidCatalog 0 ∧
      (onePaidArmy.followerCost < (Army.add paidCatalog onePaidArmy 0).followerCost
        ↔ 0 < costAt paidCatalog 0)) :=
  ⟨by decide, add_cost_exact paidCatalog onePaidArmy 0 (by decide) (by decide) (by decide)⟩

/-- C2, as stated, fails.  Over a catalog whose entry costs `INT32_MAX`, the
army built from two valid indices has two members whose costs sum to
`4294967294`.  That sum is outside the range of `int32_t`, so whatever value
the `int32_t` field `followerCost` holds, it is not the sum of the members'
costs. -/
theorem cost_invariant_counterexample :
    (∀ m ∈ [(0 : Int), 0], validIndex costlyCatalog m) ∧
    [(0 : Int), 0].length ≤ ARMY_MAX_SIZE ∧
    (Army.construct costlyCatalog blankArmy [0, 0]).members = [0, 0] ∧
    (Army.construct costlyCatalog blankArmy [0, 0]).memberCostSum costlyCatalog = 4294967294 ∧
    (∀ x : Int, inInt32 x →
      x ≠ (Army.construct costlyCatalog blankArmy [0, 0]).memberCostSum costlyCatalog) ∧
    (Army.construct costlyCatalog blankArmy [0, 0]).followerCost
      ≠ (Army.construct costlyCatalog blankArmy [0, 0]).memberCostSum costlyCatalog := by
  have hsum : (Army.construct costlyCatalog blankArmy [0, 0]).memberCostSum costlyCatalog
      = 4294967294 := by decide
  refine ⟨by decide, by decide, by decide, hsum, ?_, by decide⟩
  intro x hx
  rw [hsum]
  unfold inInt32 INT32_MIN INT32_MAX at hx
  omega

/-- C2, amended: for every army obtained by the constructor from valid indices
followed by `add` calls with valid indices, at most `ARMY_MAX_SIZE` members in
total, such that no `followerCost += ...` along the way overflows (every
partial sum of the added costs fits in `int32_t`), `followerCost` equals the
sum of `monsterReference[monsters[i]].cost` over the members; in particular the
empty army has `followerCost = 0`. -/
theorem cost_invariant (cat : List Monster) (mem : Army) (v adds : List Int)
    (_hv : ∀ m ∈ v, validIndex cat m) (_hadds : ∀ m ∈ adds, validIndex cat m)
    (hlen : v.length + adds.length ≤ ARMY_MAX_SIZE)
    (hfit : partialSumsFit cat (v ++ adds)) :
    (adds.foldl (Army.add cat) (Army.construct cat mem v)).followerCost
        = (adds.foldl (Army.add cat) (Army.construct cat mem v)).memberCostSum cat ∧
      (Army.construct cat mem []).followerCost = 0 := by
  obtain ⟨-, hmem, hcost⟩ := construct_then_add_spec cat mem v adds hlen
  refine ⟨?_, rfl⟩
  unfold Army.memberCostSum
  rw [hmem, hcost, wrapInt32_of_inInt32 _ (partialSumsFit_total cat _ hfit)]

/-- C2, amended, at a concrete input: the constructor on the indices `1, 0`
followed by one `add` of index `1`, over `mixedCatalog`, gives cost `1500`, the
sum of the members' costs `250 + 1000 + 250`. -/
theorem cost_invariant_witness :
    ((∀ m ∈ [(1 : Int), 0], validIndex mixedCatalog m) ∧
      (∀ m ∈ [(1 : Int)], validIndex mixedCatalog m) ∧
      [(1 : Int), 0].length + [(1 : Int)].length ≤ ARMY_MAX_SIZE ∧
      partialSumsFit mixedCatalog ([(1 : Int), 0] ++ [(1 : Int)])) ∧
    (([(1 : Int)].foldl (Army.add mixedCatalog)
          (Army.construct mixedCatalog blankArmy [1, 0])).followerCost
        = ([(1 : Int)].foldl (Army.add mixedCatalog)
            (Army.construct mixedCatalog blankArmy [1, 0])).memberCostSum mixedCatalog ∧
      (Army.construct mixedCatalog blankArmy []).followerCost = 0) :=
  ⟨by decide,
    cost_invariant mixedCatalog blankArmy [1, 0] [1] (by decide) (by decide) (by decide)
      (by decide)⟩

/-! ## The dominance comparison -/

/-- C3: `operator <=` is transitive: if `X <= Y` and `Y <= Z` then `X <= Z`. -/
theorem operator_le_trans (X Y Z : FightResult)
    (hXY : X.operator_le Y = true) (hYZ : Y.operator_le Z = true) :
    X.operator_le Z = true := by
  rw [operator_le_iff] at hXY hYZ ⊢
  obtain ⟨a1, a2, a3⟩ := hXY
  obtain ⟨b1, b2, b3⟩ := hYZ
  refine ⟨by omega, by omega, ?_⟩
  rcases a3 with a3 | ⟨a3, a4⟩ <;> rcases b3 with b3 | ⟨b3, b4⟩
  · left; omega
  · left; omega
  · left; omega
  · right; exact ⟨by omega, by omega⟩

/-- C3 at a concrete input: `weakResult <= middleResult <= strongResult`. -/
theorem operator_le_trans_witness :
    (weakResult.operator_le middleResult = true ∧
      middleResult.operator_le strongResult = true) ∧
    weakResult.operator_le strongResult = true :=
  ⟨by decide, operator_le_trans weakResult middleResult strongResult (by decide) (by decide)⟩

/-- C4: `operator <=` is reflexive: `X <= X` is true for every fight result,
whatever its field values. -/
theorem operator_le_refl (X : FightResult) : X.operator_le X = true := by
  rw [operator_le_iff]
  exact ⟨le_refl _, le_refl _, Or.inr ⟨rfl, le_refl _⟩⟩

/-- C5: `operator <=` is not total: there are fight results `X` and `Y` with
neither `X <= Y` nor `Y <= X`. -/
theorem operator_le_not_total :
    ∃ X Y : FightResult, X.operator_le Y = false ∧ Y.operator_le X = false :=
  ⟨splashedResult, lostResult, by decide, by decide⟩

/-- C6, as stated, fails.  `piercedResult` took more Valkyrie damage than
`lostResult` on either side, so it is not "not worse" in the specification's
words, yet `piercedResult <= lostResult` is true; and `lostResult` destroyed
fewer monsters than `killingResult`, yet `lostResult <= killingResult` is true.
Both hold whichever side the compared army fought on (the second line of each
pair flips `rightWon` so that the right side is the non-winning one). -/
theorem operator_le_spec_relation_counterexample :
    (nonWinning Side.left piercedResult ∧ nonWinning Side.left lostResult ∧
      piercedResult.operator_le lostResult = true ∧
      ¬ specNotWorse Side.left piercedResult lostResult) ∧
    (nonWinning Side.right { piercedResult with rightWon := false } ∧
      nonWinning Side.right { lostResult with rightWon := false } ∧
      FightResult.operator_le { piercedResult with rightWon := false }
        { lostResult with rightWon := false } = true ∧
      ¬ specNotWorse Side.right { piercedResult with rightWon := false }
        { lostResult with rightWon := false }) ∧
    (nonWinning Side.left lostResult ∧ nonWinning Side.left killingResult ∧
      lostResult.operator_le killingResult = true ∧
      ¬ specNotWorse Side.left lostResult killingResult) ∧
    (nonWinning Side.right { lostResult with rightWon := false } ∧
      nonWinning Side.right { killingResult with rightWon := false } ∧
      FightResult.operator_le { lostResult with rightWon := false }
        { killingResult with rightWon := false } = true ∧
      ¬ specNotWorse Side.right { lostResult with rightWon := false }
        { killingResult with rightWon := false }) := by
  decide

/-- C6, amended: `A <= B` is true exactly when A's `leftAoeDamage` is at least
B's and A's `rightAoeDamage` is at most B's, and, subject to that, A's
`monstersLost` is less than B's, or they tie on `monstersLost` and A's `damage`
is at most B's.  The Valkyrie damage fields are not compared. -/
theorem operator_le_decides (A B : FightResult) :
    A.operator_le B = true ↔
      (A.leftAoeDamage ≥ B.leftAoeDamage ∧ A.rightAoeDamage ≤ B.rightAoeDamage) ∧
        (A.monstersLost < B.monstersLost ∨
          (A.monstersLost = B.monstersLost ∧ A.damage ≤ B.damage)) := by
  rw [operator_le_iff]
  constructor
  · rintro ⟨h1, h2, h3⟩; exact ⟨⟨h1, h2⟩, h3⟩
  · rintro ⟨⟨h1, h2⟩, h3⟩; exact ⟨h1, h2, h3⟩

/-! ## Sorting armies -/

/-- C7: in a list of armies sorted by `hasFewerFollowers` (for positions
`i < j`, `hasFewerFollowers L[j] L[i]` is false), no army whose `dominated` flag
is true precedes one whose flag is false, and among armies with equal flags
`followerCost` is non-decreasing along the list. -/
theorem frontier_ordering (L : List Army)
    (hsorted : L.Pairwise (fun a b => hasFewerFollowers b a = false)) :
    ∀ (i j : Nat) (hij : i < j) (hj : j < L.length),
      ¬ ((L.get ⟨i, Nat.lt_trans hij hj⟩).lastFightData.dominated = true ∧
          (L.get ⟨j, hj⟩).lastFightData.dominated = false) ∧
        ((L.get ⟨i, Nat.lt_trans hij hj⟩).lastFightData.dominated
            = (L.get ⟨j, hj⟩).lastFightData.dominated →
          (L.get ⟨i, Nat.lt_trans hij hj⟩).followerCost ≤ (L.get ⟨j, hj⟩).followerCost) := by
  intro i j hij hj
  have h := List.pairwise_iff_get.mp hsorted ⟨i, Nat.lt_trans hij hj⟩ ⟨j, hj⟩ hij
  revert h
  generalize L.get ⟨i, Nat.lt_trans hij hj⟩ = a
  generalize L.get ⟨j, hj⟩ = b
  intro h
  unfold hasFewerFollowers at h
  cases ha : a.lastFightData.dominated <;> cases hb : b.lastFightData.dominated <;>
    simp [ha, hb] at h ⊢ <;> omega

/-- C7 at a concrete input: the five-army list `sortedFrontier`. -/
theorem frontier_ordering_witness :
    sortedFrontier.Pairwise (fun a b => hasFewerFollowers b a = false) ∧
    ∀ (i j : Nat) (hij : i < j) (hj : j < sortedFrontier.length),
      ¬ ((sortedFrontier.get ⟨i, Nat.lt_trans hij hj⟩).lastFightData.dominated = true ∧
          (sortedFrontier.get ⟨j, hj⟩).lastFightData.dominated = false) ∧
        ((sortedFrontier.get ⟨i, Nat.lt_trans hij hj⟩).lastFightData.dominated
            = (sortedFrontier.get ⟨j, hj⟩).lastFightData.dominated →
          (sortedFrontier.get ⟨i, Nat.lt_trans hij hj⟩).followerCost
            ≤ (sortedFrontier.get ⟨j, hj⟩).followerCost) :=
  ⟨by decide, frontier_ordering sortedFrontier (by decide)⟩

/-! ## Capacity and frame of `add` -/

/-- C8, as stated, fails.  `add` on the full six-monster army `fullPaidArmy`
rejects nothing: `followerCost` goes from `6000` to `7000`, so the army is not
left as it was; likewise the constructor on seven indices charges the seventh
monster, returning an army of cost `7000` where six monsters cost `6000`. -/
theorem add_capacity_counterexample :
    validIndex paidCatalog 0 ∧
    fullPaidArmy.monsterAmount = ARMY_MAX_SIZE ∧
    fullPaidArmy.followerCost = 6000 ∧
    (Army.add paidCatalog fullPaidArmy 0).followerCost = 7000 ∧
    (Army.add paidCatalog fullPaidArmy 0).followerCost ≠ fullPaidArmy.followerCost ∧
    (∀ m ∈ [(0 : Int), 0, 0, 0, 0, 0, 0], validIndex paidCatalog m) ∧
    (Army.construct paidCatalog blankArmy [0, 0, 0, 0, 0, 0]).followerCost = 6000 ∧
    (Army.construct paidCatalog blankArmy [0, 0, 0, 0, 0, 0, 0]).followerCost = 7000 := by
  decide

/-- C8, amended: `add` makes no capacity check and rejects nothing.  On an army
that already holds `ARMY_MAX_SIZE` monsters, for a valid catalog index `m`
whose cost still fits, `add` raises `followerCost` by
`monsterReference[m].cost`, so that the army is not left as it was unless that
cost is `0`; likewise the constructor on a list of `ARMY_MAX_SIZE + 1` valid
indices charges the last monster on top of the cost of the first
`ARMY_MAX_SIZE`.  Nothing is stated about `monsters` and `monsterAmount` after
such a call: its store is outside the array. -/
theorem add_full_army_not_rejected (cat : List Monster) (A mem : Army) (m : Int)
    (w : List Int) (_hfull : A.monsterAmount = ARMY_MAX_SIZE) (_hm : validIndex cat m)
    (hfit : inInt32 (A.followerCost + costAt cat m))
    (_hw : ∀ x ∈ w, validIndex cat x) (_hwlen : w.length = ARMY_MAX_SIZE)
    (hwfit : partialSumsFit cat (w ++ [m])) :
    ((Army.add cat A m).followerCost = A.followerCost + costAt cat m ∧
      (costAt cat m ≠ 0 → Army.add cat A m ≠ A)) ∧
    (Army.construct cat mem (w ++ [m])).followerCost
      = (Army.construct cat mem w).followerCost + costAt cat m := by
  have hcost : (Army.add cat A m).followerCost = A.followerCost + costAt cat m :=
    wrapInt32_of_inInt32 _ hfit
  refine ⟨⟨hcost, ?_⟩, ?_⟩
  · intro hne heq
    rw [heq] at hcost
    omega
  · rw [construct_followerCost_of_fit cat mem (w ++ [m]) (partialSumsFit_total cat _ hwfit),
      construct_followerCost_of_fit cat mem w
        (partialSumsFit_total cat _ (partialSumsFit_left cat w [m] hwfit))]
    simp

/-- C8, amended, at a concrete input: a seventh monster of cost `1000` for
`fullPaidArmy`, and the constructor on seven indices. -/
theorem add_full_army_not_rejected_witness :
    (fullPaidArmy.monsterAmount = ARMY_MAX_SIZE ∧ validIndex paidCatalog 0 ∧
      inInt32 (fullPaidArmy.followerCost + costAt paidCatalog 0) ∧
      (∀ x ∈ [(0 : Int), 0, 0, 0, 0, 0], validIndex paidCatalog x) ∧
      [(0 : Int), 0, 0, 0, 0, 0].length = ARMY_MAX_SIZE ∧
      partialSumsFit paidCatalog ([(0 : Int), 0, 0, 0, 0, 0] ++ [0])) ∧
    (((Army.add paidCatalog fullPaidArmy 0).followerCost
          = fullPaidArmy.followerCost + costAt paidCatalog 0 ∧
        (costAt paidCatalog 0 ≠ 0 → Army.add paidCatalog fullPaidArmy 0 ≠ fullPaidArmy)) ∧
      (Army.construct paidCatalog blankArmy ([(0 : Int), 0, 0, 0, 0, 0] ++ [0])).followerCost
        = (Army.construct paidCatalog blankArmy [0, 0, 0, 0, 0, 0]).followerCost
          + costAt paidCatalog 0) :=
  ⟨by decide,
    add_full_army_not_rejected paidCatalog fullPaidArmy blankArmy 0 [0, 0, 0, 0, 0, 0]
      (by decide) (by decide) (by decide) (by decide) (by decide) (by decide)⟩

/-- C9: on an army with `n < ARMY_MAX_SIZE` monsters and for a valid catalog
index `m`, `add` makes `monsterAmount` equal to `n + 1` and `monsters[n]` equal
to `m`, leaves every other slot of `monsters` (in particular every slot
`i < n`) unchanged, and leaves `lastFightData` unchanged: besides
`followerCost`, only `monsterAmount` and slot `n` differ. -/
theorem add_frame (cat : List Monster) (A : Army) (m : Int) (n : Nat)
    (hn : n < ARMY_MAX_SIZE) (hA : A.monsterAmount = n) (_hm : validIndex cat m) :
    (Army.add cat A m).monsterAmount = n + 1 ∧
      (Army.add cat A m).monsters.get ⟨n, hn⟩ = m ∧
      (∀ i : Fin ARMY_MAX_SIZE, i.val ≠ n →
        (Army.add cat A m).monsters.get i = A.monsters.get i) ∧
      (Army.add cat A m).lastFightData = A.lastFightData := by
  have h1 := add_monsterAmount cat A m n hn hA
  have h2 : (Army.add cat A m).monsters = A.monsters.set ⟨n, hn⟩ m := by
    show storeSlot A.monsters A.monsterAmount m = _
    rw [hA, storeSlot_inBounds A.monsters n hn m]
  refine ⟨?_, ?_, ?_, rfl⟩
  · rw [h1]; push_cast; rfl
  · rw [h2, Mathlib.Vector.get_set_same]
  · intro i hi
    rw [h2]
    exact Mathlib.Vector.get_set_of_ne (fun h => hi (by rw [← h])) m

/-- C9 at a concrete input: a second monster for `onePaidArmy`. -/
theorem add_frame_witness :
    (onePaidArmy.monsterAmount = ((1 : Nat) : Int) ∧ validIndex paidCatalog 0) ∧
    ((Army.add paidCatalog onePaidArmy 0).monsterAmount = ((1 : Nat) : Int) + 1 ∧
      (Army.add paidCatalog onePaidArmy 0).monsters.get ⟨1, by decide⟩ = 0 ∧
      (∀ i : Fin ARMY_MAX_SIZE, i.val ≠ 1 →
        (Army.add paidCatalog onePaidArmy 0).monsters.get i = onePaidArmy.monsters.get i) ∧
      (Army.add paidCatalog onePaidArmy 0).lastFightData = onePaidArmy.lastFightData) :=
  ⟨by decide, add_frame paidCatalog onePaidArmy 0 1 (by decide) (by decide) (by decide)⟩

/-! ## Non-comparable outcomes -/

/-- C10, as stated, fails.  The left side of `leftSplashedResult` took more
area damage and less Valkyrie damage than that of `leftPiercedResult`, yet
`leftSplashedResult <= leftPiercedResult` is true; reading the damage as that
of the right side, `rightSplashedResult` took more area damage and less Valkyrie
damage than `rightPiercedResult`, yet `rightPiercedResult <= rightSplashedResult`
is true. -/
theorem operator_le_valkyrie_counterexample :
    (aoeTaken Side.left leftSplashedResult > aoeTaken Side.left leftPiercedResult ∧
      valkyrieTaken Side.left leftSplashedResult
        < valkyrieTaken Side.left leftPiercedResult ∧
      leftSplashedResult.operator_le leftPiercedResult = true) ∧
    (aoeTaken Side.right rightSplashedResult > aoeTaken Side.right rightPiercedResult ∧
      valkyrieTaken Side.right rightSplashedResult
        < valkyrieTaken Side.right rightPiercedResult ∧
      rightPiercedResult.operator_le rightSplashedResult = true) := by
  decide

/-- C10, amended: for every pair of fight results `X` and `Y` in which `X` has
more `leftAoeDamage` and also more `rightAoeDamage` than `Y`, neither dominates
the other: `X <= Y` and `Y <= X` are both false.  The Valkyrie damage plays no
part. -/
theorem operator_le_incomparable (X Y : FightResult)
    (hleft : X.leftAoeDamage > Y.leftAoeDamage)
    (hright : X.rightAoeDamage > Y.rightAoeDamage) :
    X.operator_le Y = false ∧ Y.operator_le X = false := by
  constructor
  · rw [operator_le_eq_false_iff]
    rintro ⟨-, h, -⟩; omega
  · rw [operator_le_eq_false_iff]
    rintro ⟨h, -, -⟩; omega

/-- C10, amended, at a concrete input: `splashedResult` against `lostResult`. -/
theorem operator_le_incomparable_witness :
    (splashedResult.leftAoeDamage > lostResult.leftAoeDamage ∧
      splashedResult.rightAoeDamage > lostResult.rightAoeDamage) ∧
    (splashedResult.operator_le lostResult = false ∧
      lostResult.operator_le splashedResult = false) :=
  ⟨by decide, operator_le_incomparable splashedResult lostResult (by decide) (by decide)⟩

/-! ## Validity of outcomes -/

/-- C11, as stated, fails.  `unsimulatedResult` has `valid = false` and
`splashedResult` has `valid = true`, yet `unsimulatedResult <= splashedResult`
is false: the left side took less area damage in the invalid outcome, and the
comparison stops there. -/
theorem operator_le_invalid_counterexample :
    unsimulatedResult.valid = false ∧ splashedResult.valid = true ∧
    unsimulatedResult.operator_le splashedResult = false := by
  decide

/-- C11, amended: `operator <=` never consults `valid`.  For an outcome `X`
with `valid = false` and an outcome `Y` with `valid = true` the verdict of
`X <= Y` is the one `X` would get with its flag set, so `X <= Y` holds exactly
when X's `leftAoeDamage` is at least Y's, X's `rightAoeDamage` is at most Y's,
and X's `monstersLost` is less than Y's or they tie and X's `damage` is at most
Y's. -/
theorem operator_le_ignores_valid (X Y : FightResult)
    (_hX : X.valid = false) (_hY : Y.valid = true) :
    X.operator_le Y = FightResult.operator_le { X with valid := true } Y ∧
      (X.operator_le Y = true ↔
        X.leftAoeDamage ≥ Y.leftAoeDamage ∧ X.rightAoeDamage ≤ Y.rightAoeDamage ∧
          (X.monstersLost < Y.monstersLost ∨
            (X.monstersLost = Y.monstersLost ∧ X.damage ≤ Y.damage))) :=
  ⟨rfl, operator_le_iff X Y⟩

/-- C11, amended, at a concrete input: the invalid `unsimulatedWeakResult`
against the valid `middleResult`. -/
theorem operator_le_ignores_valid_witness :
    (unsimulatedWeakResult.valid = false ∧ middleResult.valid = true) ∧
    (unsimulatedWeakResult.operator_le middleResult
        = FightResult.operator_le { unsimulatedWeakResult with valid := true } middleResult ∧
      (unsimulatedWeakResult.operator_le middleResult = true ↔
        unsimulatedWeakResult.leftAoeDamage ≥ middleResult.leftAoeDamage ∧
          unsimulatedWeakResult.rightAoeDamage ≤ middleResult.rightAoeDamage ∧
          (unsimulatedWeakResult.monstersLost < middleResult.monstersLost ∨
            (unsimulatedWeakResult.monstersLost = middleResult.monstersLost ∧
              unsimulatedWeakResult.damage ≤ middleResult.damage)))) :=
  ⟨by decide, operator_le_ignores_valid unsimulatedWeakResult middleResult rfl rfl⟩

/-- C12: the default-constructed `FightResult` has `valid = false`, whatever its
storage held, and so has the `lastFightData` of every army the constructor
returns for a list of at most `ARMY_MAX_SIZE` valid indices, the empty list
included. -/
theorem construct_lastFightData_invalid (cat : List Monster) (mem : Army)
    (fmem : FightResult) (v : List Int)
    (_hv : ∀ m ∈ v, validIndex cat m) (_hlen : v.length ≤ ARMY_MAX_SIZE) :
    (FightResult.construct fmem).valid = false ∧
      (Army.construct cat mem v).lastFightData.valid = false ∧
      (Army.construct cat mem []).lastFightData.valid = false := by
  refine ⟨rfl, ?_, rfl⟩
  rw [construct_eq_foldl, foldl_add_lastFightData]
  rfl

/-- C12 at a concrete input: the constructor over `staleArmy`, whose storage
holds a fight result marked valid, on two indices. -/
theorem construct_lastFightData_invalid_witness :
    (staleArmy.lastFightData.valid = true ∧
      (∀ m ∈ [(0 : Int), 0], validIndex paidCatalog m) ∧
      [(0 : Int), 0].length ≤ ARMY_MAX_SIZE) ∧
    ((FightResult.construct strongResult).valid = false ∧
      (Army.construct paidCatalog staleArmy [0, 0]).lastFightData.valid = false ∧
      (Army.construct paidCatalog staleArmy []).lastFightData.valid = false) :=
  ⟨by decide,
    construct_lastFightData_invalid paidCatalog staleArmy strongResult [0, 0]
      (by decide) (by decide)⟩

/-! ## The counter table -/

/-- C13: on the four base elements `counter[]` is a single 4-cycle.  It maps
each base element to a different base element; every base element is the
counter of exactly one base element; from a base element `k` lookups lead back
to it exactly when `k` is a multiple of four, and fewer than four lookups reach
every base element; `ALL` and `SELF` are not mapped to a base element, by one
lookup or by any number of them. -/
theorem counter_four_cycle :
    (∀ e, isBaseElement e = true →
      isBaseElement (counterOf e) = true ∧ counterOf e ≠ e) ∧
    (∀ t, isBaseElement t = true →
      ∃! e, isBaseElement e = true ∧ counterOf e = t) ∧
    (∀ e k, isBaseElement e = true → (counterOf^[k] e = e ↔ 4 ∣ k)) ∧
    (∀ e t, isBaseElement e = true → isBaseElement t = true →
      ∃ k, k < 4 ∧ counterOf^[k] e = t) ∧
    (isBaseElement (counterOf Element.ALL) = false ∧
      isBaseElement (counterOf Element.SELF) = false) ∧
    (∀ e k, isBaseElement e = false → isBaseElement (counterOf^[k] e) = false) := by
  refine ⟨?_, ?_, ?_, ?_, ⟨rfl, rfl⟩, ?_⟩
  · intro e he
    cases e <;> first | exact ⟨rfl, by decide⟩ | exact absurd he (by decide)
  · intro t ht
    cases t
    · exact ⟨Element.AIR, ⟨rfl, rfl⟩, fun y hy => by cases y <;> first | rfl | (revert hy; decide)⟩
    · exact ⟨Element.WATER, ⟨rfl, rfl⟩, fun y hy => by cases y <;> first | rfl | (revert hy; decide)⟩
    · exact ⟨Element.FIRE, ⟨rfl, rfl⟩, fun y hy => by cases y <;> first | rfl | (revert hy; decide)⟩
    · exact ⟨Element.EARTH, ⟨rfl, rfl⟩, fun y hy => by cases y <;> first | rfl | (revert hy; decide)⟩
    · exact absurd ht (by decide)
    · exact absurd ht (by decide)
  · intro e k he
    rw [counterOf_iterate_mod e he k,
      counterOf_iterate_lt_four e he (k % 4) (Nat.mod_lt k (by decide))]
    omega
  · intro e t he ht
    cases e <;> cases t <;> first
      | exact absurd he (by decide)
      | exact absurd ht (by decide)
      | exact ⟨0, by decide, rfl⟩
      | exact ⟨1, by decide, rfl⟩
      | exact ⟨2, by decide, rfl⟩
      | exact ⟨3, by decide, rfl⟩
  · intro e k he
    exact counterOf_iterate_not_base e he k

/-! ## Battle order -/

/-- C14: for a list `v` of at most `ARMY_MAX_SIZE` valid catalog indices, the
constructor returns an army with `monsterAmount = |v|` and `monsters[i] = v[i]`
for every `i < |v|`; that army is the result of applying `add` to the elements
of `v` in order, starting from the empty army; and `isEmpty()` is true exactly
when `v` is empty. -/
theorem construct_preserves_order (cat : List Monster) (mem : Army) (v : List Int)
    (_hv : ∀ m ∈ v, validIndex cat m) (hlen : v.length ≤ ARMY_MAX_SIZE) :
    (Army.construct cat mem v).monsterAmount = v.length ∧
      (∀ (i : Nat) (hi : i < v.length),
        (Army.construct cat mem v).monsters.get ⟨i, Nat.lt_of_lt_of_le hi hlen⟩
          = v.get ⟨i, hi⟩) ∧
      Army.construct cat mem v = v.foldl (Army.add cat) (Army.construct cat mem []) ∧
      ((Army.construct cat mem v).isEmpty = true ↔ v = []) := by
  obtain ⟨hcount, hmem, -⟩ := construct_then_add_spec cat mem v [] (by simpa using hlen)
  simp only [List.foldl_nil, List.length_nil, Nat.add_zero, List.append_nil] at hcount hmem
  refine ⟨hcount, ?_, rfl, ?_⟩
  · intro i hi
    exact get_of_members_eq _ v hmem i hi (Nat.lt_of_lt_of_le hi hlen)
  · unfold Army.isEmpty
    rw [hcount, beq_iff_eq]
    constructor
    · intro h
      exact List.length_eq_zero.mp (by exact_mod_cast h)
    · intro h
      rw [h]; rfl

/-- C14 at a concrete input: the constructor over stale storage on the indices
`1, 0, 1` of a two-entry catalog. -/
theorem construct_preserves_order_witness :
    ((∀ m ∈ [(1 : Int), 0, 1], validIndex mixedCatalog m) ∧
      [(1 : Int), 0, 1].length ≤ ARMY_MAX_SIZE) ∧
    ((Army.construct mixedCatalog staleArmy [1, 0, 1]).monsterAmount
        = [(1 : Int), 0, 1].length ∧
      (∀ (i : Nat) (hi : i < [(1 : Int), 0, 1].length),
        (Army.construct mixedCatalog staleArmy [1, 0, 1]).monsters.get
            ⟨i, Nat.lt_of_lt_of_le hi (by decide)⟩
          = [(1 : Int), 0, 1].get ⟨i, hi⟩) ∧
      Army.construct mixedCatalog staleArmy [1, 0, 1]
        = [(1 : Int), 0, 1].foldl (Army.add mixedCatalog)
            (Army.construct mixedCatalog staleArmy []) ∧
      ((Army.construct mixedCatalog staleArmy [1, 0, 1]).isEmpty = true
        ↔ [(1 : Int), 0, 1] = [])) :=
  ⟨by decide,
    construct_preserves_order mixedCatalog staleArmy [1, 0, 1] (by decide) (by decide)⟩

/-! ## The sort comparator -/

/-- C15: `hasFewerFollowers` is a strict weak ordering on armies.  It is
irreflexive, asymmetric and transitive; two armies are incomparable (neither is
before the other) exactly when their `dominated` flags and their
`followerCost`s are equal; and incomparability is transitive. -/
theorem hasFewerFollowers_strict_weak_order (a b c : Army) :
    hasFewerFollowers a a = false ∧
    (hasFewerFollowers a b = true → hasFewerFollowers b a = false) ∧
    (hasFewerFollowers a b = true → hasFewerFollowers b c = true →
      hasFewerFollowers a c = true) ∧
    ((hasFewerFollowers a b = false ∧ hasFewerFollowers b a = false) ↔
      (a.lastFightData.dominated = b.lastFightData.dominated ∧
        a.followerCost = b.followerCost)) ∧
    (hasFewerFollowers a b = false ∧ hasFewerFollowers b a = false →
      hasFewerFollowers b c = false ∧ hasFewerFollowers c b = false →
      hasFewerFollowers a c = false ∧ hasFewerFollowers c a = false) := by
  simp only [hasFewerFollowers_eq_false_iff, hasFewerFollowers_iff]
  cases a.lastFightData.dominated <;> cases b.lastFightData.dominated <;>
    cases c.lastFightData.dominated <;> simp <;> omega

/-! ## Further properties of the dominance comparison -/

/-- C16: if `X <= Y` and `Y <= X` both hold then `X` and `Y` agree on
`leftAoeDamage`, `rightAoeDamage`, `monstersLost` and `damage`. -/
theorem operator_le_antisymm (X Y : FightResult)
    (hXY : X.operator_le Y = true) (hYX : Y.operator_le X = true) :
    X.leftAoeDamage = Y.leftAoeDamage ∧ X.rightAoeDamage = Y.rightAoeDamage ∧
      X.monstersLost = Y.monstersLost ∧ X.damage = Y.damage := by
  rw [operator_le_iff] at hXY hYX
  obtain ⟨a1, a2, a3⟩ := hXY
  obtain ⟨b1, b2, b3⟩ := hYX
  refine ⟨by omega, by omega, ?_, ?_⟩ <;>
    rcases a3 with a3 | ⟨a3, a4⟩ <;> rcases b3 with b3 | ⟨b3, b4⟩ <;> omega

/-- C16 at a concrete input: `weakResult` and `weakTwinResult` dominate each
other; they agree on the four fields and differ in all the others. -/
theorem operator_le_antisymm_witness :
    (weakResult.operator_le weakTwinResult = true ∧
      weakTwinResult.operator_le weakResult = true ∧ weakResult ≠ weakTwinResult) ∧
    (weakResult.leftAoeDamage = weakTwinResult.leftAoeDamage ∧
      weakResult.rightAoeDamage = weakTwinResult.rightAoeDamage ∧
      weakResult.monstersLost = weakTwinResult.monstersLost ∧
      weakResult.damage = weakTwinResult.damage) :=
  ⟨by decide, operator_le_antisymm weakResult weakTwinResult (by decide) (by decide)⟩

/-- C17: the verdict of `operator <=` depends only on `leftAoeDamage`,
`rightAoeDamage`, `monstersLost` and `damage`: if `X` and `X'` agree on these
four fields and so do `Y` and `Y'`, then `X <= Y` and `X' <= Y'` have the same
verdict, whatever `leftValkyrieDamage`, `rightValkyrieDamage`, `berserk`,
`turncounter`, `valid`, `rightWon` and `dominated` are. -/
theorem operator_le_four_fields (X X' Y Y' : FightResult)
    (hX : X.leftAoeDamage = X'.leftAoeDamage ∧ X.rightAoeDamage = X'.rightAoeDamage ∧
      X.monstersLost = X'.monstersLost ∧ X.damage = X'.damage)
    (hY : Y.leftAoeDamage = Y'.leftAoeDamage ∧ Y.rightAoeDamage = Y'.rightAoeDamage ∧
      Y.monstersLost = Y'.monstersLost ∧ Y.damage = Y'.damage) :
    X.operator_le Y = X'.operator_le Y' := by
  obtain ⟨x1, x2, x3, x4⟩ := hX
  obtain ⟨y1, y2, y3, y4⟩ := hY
  unfold FightResult.operator_le
  rw [x1, x2, x3, x4, y1, y2, y3, y4]

/-- C17 at a concrete input: `weakResult` against `middleResult`, and their
twins that differ in all seven other fields. -/
theorem operator_le_four_fields_witness :
    ((weakResult.leftAoeDamage = weakTwinResult.leftAoeDamage ∧
        weakResult.rightAoeDamage = weakTwinResult.rightAoeDamage ∧
        weakResult.monstersLost = weakTwinResult.monstersLost ∧
        weakResult.damage = weakTwinResult.damage) ∧
      (middleResult.leftAoeDamage = middleTwinResult.leftAoeDamage ∧
        middleResult.rightAoeDamage = middleTwinResult.rightAoeDamage ∧
        middleResult.monstersLost = middleTwinResult.monstersLost ∧
        middleResult.damage = middleTwinResult.damage)) ∧
    weakResult.operator_le middleResult = weakTwinResult.operator_le middleTwinResult :=
  ⟨by decide,
    operator_le_four_fields weakResult weakTwinResult middleResult middleTwinResult
      (by decide) (by decide)⟩

/-- C18: among outcomes with equal `leftAoeDamage` and equal `rightAoeDamage`
the comparison is total: at least one of `X <= Y` and `Y <= X` holds, and
`X <= Y` holds exactly when the pair (`monstersLost`, `damage`) of `X` is
lexicographically less than or equal to that of `Y`. -/
theorem operator_le_total_on_equal_aoe (X Y : FightResult)
    (hleft : X.leftAoeDamage = Y.leftAoeDamage)
    (hright : X.rightAoeDamage = Y.rightAoeDamage) :
    (X.operator_le Y = true ∨ Y.operator_le X = true) ∧
      (X.operator_le Y = true ↔
        (X.monstersLost < Y.monstersLost ∨
          (X.monstersLost = Y.monstersLost ∧ X.damage ≤ Y.damage))) := by
  simp only [operator_le_iff]
  constructor
  · rcases lt_trichotomy X.monstersLost Y.monstersLost with h | h | h
    · exact Or.inl ⟨by omega, by omega, Or.inl h⟩
    · rcases le_total X.damage Y.damage with h' | h'
      · exact Or.inl ⟨by omega, by omega, Or.inr ⟨h, h'⟩⟩
      · exact Or.inr ⟨by omega, by omega, Or.inr ⟨h.symm, h'⟩⟩
    · exact Or.inr ⟨by omega, by omega, Or.inl h⟩
  · constructor
    · rintro ⟨-, -, h⟩; exact h
    · intro h; exact ⟨by omega, by omega, h⟩

/-- C18 at a concrete input: `weakResult` against `weakKillingResult`, which
took the same area damage and destroyed more monsters. -/
theorem operator_le_total_on_equal_aoe_witness :
    (weakResult.leftAoeDamage = weakKillingResult.leftAoeDamage ∧
      weakResult.rightAoeDamage = weakKillingResult.rightAoeDamage) ∧
    ((weakResult.operator_le weakKillingResult = true ∨
        weakKillingResult.operator_le weakResult = true) ∧
      (weakResult.operator_le weakKillingResult = true ↔
        (weakResult.monstersLost < weakKillingResult.monstersLost ∨
          (weakResult.monstersLost = weakKillingResult.monstersLost ∧
            weakResult.damage ≤ weakKillingResult.damage)))) :=
  ⟨by decide,
    operator_le_total_on_equal_aoe weakResult weakKillingResult (by decide) (by decide)⟩

end CosmosData
